import Mathlib

/-!
Verification of the bridge shear-force / bending-moment diagram scripts
(`TASK_1.py`, the 2D central-girder profile, and `3D_task_2.py`, the 3D
ribbon-mesh builder) against their natural-language specification.

The embedding models the data exactly as the scripts consume it:
nodes as a map from node id to coordinate triple, elements as an ordered
list of (element id, node_i, node_j) mirroring the insertion order of the
`members` dict, and the NetCDF results dataset as a partial accessor from
(element id, component name) to a rational value, where `none` models a
failed `.sel` lookup, together with the list of available component names.
Floating-point values are modelled as rationals: the scripts perform only
additions, subtractions, multiplications by `t = i / segments`, one global
division for the scale factor, and absolute values, so every identity
claimed by the spec is exact over ℚ.
-/

namespace BridgeDiagrams

abbrev ElemId := ℕ
abbrev NodeId := ℕ

/-- A 3D coordinate triple, as stored in the `nodes` table (`node.py`). -/
structure Vec3 where
  x : ℚ
  y : ℚ
  z : ℚ
deriving DecidableEq, Repr

/-- An element record of the `members` table: element id with its
(node_i, node_j) endpoint pair. The table is kept as an ordered list,
mirroring dict iteration order in the scripts. -/
abbrev Member := ElemId × NodeId × NodeId

/-- The results dataset (`screening_task.nc`): a force accessor keyed by
element id and component name, plus the list of available component names
(`ds['Component'].values`). A `none` result models a failed `.sel` lookup
(the KeyError path of the scripts). -/
structure Dataset where
  forces : ElemId → String → Option ℚ
  components : List String

/-- Result-type selector of `create_enhanced_3d_diagram` (`'BMD'` / `'SFD'`). -/
inductive ResultType where
  | BMD
  | SFD
deriving DecidableEq, Repr

/-- Component pair selected from the result type (`3D_task_2.py` lines
101-110): `Mz_i`/`Mz_j` for BMD, `Vy_i`/`Vy_j` for SFD. -/
def comps : ResultType → String × String
  | .BMD => ("Mz_i", "Mz_j")
  | .SFD => ("Vy_i", "Vy_j")

/-- The scale pre-pass collection (`3D_task_2.py` lines 114-121): for each
element in table order, read both end components; on any lookup failure the
element contributes nothing (the bare `except: continue`), otherwise the
absolute values of both ends are appended. Note the two reads happen before
the `extend`, so a failure on the second read drops both values. -/
def allValues (ds : Dataset) (ci cj : String) : List Member → List ℚ
  | [] => []
  | (e, _, _) :: rest =>
    match ds.forces e ci, ds.forces e cj with
    | some vi, some vj => |vi| :: |vj| :: allValues ds ci cj rest
    | some _, none => allValues ds ci cj rest
    | none, _ => allValues ds ci cj rest

/-- `max_val = max(all_values) if all_values else 1.0` (line 123): Python's
`max` over a non-empty list, and the guard maps the empty list to 1. -/
def maxVal : List ℚ → ℚ
  | [] => 1
  | v :: vs => vs.foldl max v

/-- The fixed visual constant `1.8` of `scale = 1.8 / max_val` (line 124). -/
def targetSpan : ℚ := 9 / 5

/-- The extra multiplier applied to SFD scale (`scale *= 3.0`, line 128). -/
def sfdMult : ResultType → ℚ
  | .BMD => 1
  | .SFD => 3

/-- Global scale factor of `create_enhanced_3d_diagram` (lines 113-128):
`scale = 1.8 / max_val if max_val > 0 else 1.0`, then `scale *= 3.0` when
the result type is SFD. -/
def scaleFactor (rt : ResultType) (ds : Dataset) (members : List Member) : ℚ :=
  let mv := maxVal (allValues ds (comps rt).1 (comps rt).2 members)
  let s := if 0 < mv then targetSpan / mv else 1
  if rt = .SFD then s * 3 else s

/-- Per-step linear interpolation of `3D_task_2.py` lines 205-212: the code
computes `x1 + t * (x2 - x1)` for each coordinate and `v_i + t * (v_j - v_i)`
for the force value; both are instances of this one formula. -/
def interp (a b t : ℚ) : ℚ := a + t * (b - a)

/-- The uniform interpolation parameter `t = i / segments` (line 206). -/
def tParam (segments i : ℕ) : ℚ := (i : ℚ) / (segments : ℚ)

/-- The force samples an element produces across `segments` segments:
`interp v_i v_j (i / segments)` for `i = 0, ..., segments`. -/
def sampleValues (vi vj : ℚ) (segments : ℕ) : List ℚ :=
  (List.range (segments + 1)).map (fun i => interp vi vj (tParam segments i))

/-! ### Basic lemmas about the Python `max` fold -/

theorem le_foldl_max (xs : List ℚ) (a b : ℚ) (h : b ≤ a) : b ≤ xs.foldl max a := by
  induction xs generalizing a with
  | nil => exact h
  | cons x xs ih => exact ih (max a x) (le_trans h (le_max_left a x))

theorem mem_le_foldl_max (xs : List ℚ) (a : ℚ) : ∀ x ∈ xs, x ≤ xs.foldl max a := by
  induction xs generalizing a with
  | nil => intro x hx; cases hx
  | cons y ys ih =>
    intro x hx
    cases hx with
    | head => exact le_foldl_max ys (max a y) y (le_max_right a y)
    | tail _ h => exact ih (max a y) x h

theorem foldl_max_le (xs : List ℚ) (a c : ℚ) (ha : a ≤ c) (h : ∀ x ∈ xs, x ≤ c) :
    xs.foldl max a ≤ c := by
  induction xs generalizing a with
  | nil => exact ha
  | cons y ys ih =>
    exact ih (max a y) (max_le ha (h y (List.mem_cons_self y ys)))
      (fun x hx => h x (List.mem_cons_of_mem y hx))

theorem mem_le_maxVal (l : List ℚ) : ∀ v ∈ l, v ≤ maxVal l := by
  cases l with
  | nil => intro v hv; cases hv
  | cons x xs =>
    intro v hv
    cases hv with
    | head => exact le_foldl_max xs x x le_rfl
    | tail _ h => exact mem_le_foldl_max xs x v h

theorem maxVal_le (l : List ℚ) (c : ℚ) (hne : l ≠ []) (h : ∀ v ∈ l, v ≤ c) :
    maxVal l ≤ c := by
  cases l with
  | nil => exact absurd rfl hne
  | cons x xs =>
    exact foldl_max_le xs x c (h x (List.mem_cons_self x xs))
      (fun v hv => h v (List.mem_cons_of_mem x hv))

theorem allValues_nonneg (ds : Dataset) (ci cj : String) (members : List Member) :
    ∀ v ∈ allValues ds ci cj members, 0 ≤ v := by
  induction members with
  | nil => intro v hv; cases hv
  | cons m rest ih =>
    obtain ⟨e, ni, nj⟩ := m
    intro v hv
    simp only [allValues] at hv
    cases h1 : ds.forces e ci with
    | none => rw [h1] at hv; exact ih v hv
    | some vi =>
      cases h2 : ds.forces e cj with
      | none => rw [h1, h2] at hv; exact ih v hv
      | some vj =>
        rw [h1, h2] at hv
        rw [List.mem_cons, List.mem_cons] at hv
        rcases hv with hv | hv | hv
        · exact hv ▸ abs_nonneg vi
        · exact hv ▸ abs_nonneg vj
        · exact ih v hv

theorem scaleFactor_eq (rt : ResultType) (ds : Dataset) (members : List Member) :
    scaleFactor rt ds members =
      (if 0 < maxVal (allValues ds (comps rt).1 (comps rt).2 members) then
        targetSpan / maxVal (allValues ds (comps rt).1 (comps rt).2 members)
       else 1) * sfdMult rt := by
  cases rt <;> simp [scaleFactor, sfdMult]

/-- **C1** (amended). Characterization of the global scale factor computed in
`create_enhanced_3d_diagram` (lines 113-128), writing `av` for the collected
absolute end values of the selected result type and `m` for the SFD
multiplier (3 for SFD, 1 for BMD):
(a) when some collected value is non-zero, `scale * max_abs_value = 1.8 * m`;
(b) when the collected set is empty, `scale = 1.8 * m` (NOT the identity 1.0:
the code sets `max_val = 1.0` and still divides, giving 1.8, times 3 for SFD);
(c) when the set is non-empty with all values zero, `scale = m` (identity 1.0
only for BMD; 3.0 for SFD). -/
theorem scale_characterization (rt : ResultType) (ds : Dataset) (members : List Member) :
    ((∃ v ∈ allValues ds (comps rt).1 (comps rt).2 members, v ≠ 0) →
      scaleFactor rt ds members * maxVal (allValues ds (comps rt).1 (comps rt).2 members)
        = targetSpan * sfdMult rt) ∧
    (allValues ds (comps rt).1 (comps rt).2 members = [] →
      scaleFactor rt ds members = targetSpan * sfdMult rt) ∧
    (allValues ds (comps rt).1 (comps rt).2 members ≠ [] →
      (∀ v ∈ allValues ds (comps rt).1 (comps rt).2 members, v = 0) →
      scaleFactor rt ds members = sfdMult rt) := by
  set av := allValues ds (comps rt).1 (comps rt).2 members with hav
  refine ⟨?_, ?_, ?_⟩
  · rintro ⟨v, hv, hvne⟩
    have hv0 : 0 < v := lt_of_le_of_ne (allValues_nonneg ds _ _ members v (hav ▸ hv))
      (Ne.symm hvne)
    have hmv : 0 < maxVal av := lt_of_lt_of_le hv0 (mem_le_maxVal av v hv)
    rw [scaleFactor_eq, ← hav, if_pos hmv]
    field_simp
  · intro h
    rw [scaleFactor_eq, ← hav, h]
    norm_num [maxVal]
  · intro hne hall
    have h0 : maxVal av ≤ 0 := maxVal_le av 0 hne (fun v hv => le_of_eq (hall v hv))
    rw [scaleFactor_eq, ← hav, if_neg (not_lt.mpr h0)]
    ring

/-- Dataset with no readable force record at all. -/
def emptyDs : Dataset := ⟨fun _ _ => none, []⟩

/-- Dataset answering 5 for every (element, component) query. -/
def constDs : Dataset := ⟨fun _ _ => some 5, ["Mz_i", "Mz_j", "Vy_i", "Vy_j"]⟩

/-- **C1** (counterexample). The claim demands the fallback scale 1.0 whenever
the collected value set is empty; but on a model whose dataset yields no
readable record the BMD scale is `1.8 / 1.0 = 1.8`, not 1.0. -/
theorem scale_empty_fallback_counterexample :
    allValues emptyDs "Mz_i" "Mz_j" [(1, 1, 2)] = [] ∧
    scaleFactor .BMD emptyDs [(1, 1, 2)] = 9 / 5 ∧
    scaleFactor .BMD emptyDs [(1, 1, 2)] ≠ 1 := by
  refine ⟨rfl, ?_, ?_⟩ <;>
    norm_num [scaleFactor, allValues, maxVal, emptyDs, targetSpan,
      show ResultType.BMD ≠ .SFD from by decide]

/-- Witness for `scale_characterization`: on a one-element model whose force
values are all 5, the BMD scale times the collected maximum is 1.8. -/
theorem scale_characterization_witness :
    scaleFactor .BMD constDs [(1, 1, 2)] *
      maxVal (allValues constDs (comps .BMD).1 (comps .BMD).2 [(1, 1, 2)]) =
      targetSpan * sfdMult .BMD :=
  (scale_characterization .BMD constDs [(1, 1, 2)]).1
    ⟨5, by simp [allValues, constDs, comps], by norm_num⟩

/-- **C4** (confirmed). The per-element linear interpolation of
`create_enhanced_3d_diagram` (lines 203-217): at `t = 0/S` it reproduces the
start endpoint exactly, at `t = S/S` the end endpoint exactly (this covers
coordinates and force values alike, since the code applies the same formula
to x, y, z and v); it is monotone in `t` between the endpoint values in
either direction; and the end moments 100 and -50 over 2 segments sample to
`[100, 25, -50]`. -/
theorem interp_endpoints_monotone (a b : ℚ) (S : ℕ) (hS : 1 ≤ S) :
    interp a b (tParam S 0) = a ∧
    interp a b (tParam S S) = b ∧
    (∀ t₁ t₂ : ℚ, t₁ ≤ t₂ → a ≤ b → interp a b t₁ ≤ interp a b t₂) ∧
    (∀ t₁ t₂ : ℚ, t₁ ≤ t₂ → b ≤ a → interp a b t₂ ≤ interp a b t₁) ∧
    sampleValues 100 (-50) 2 = [100, 25, -50] := by
  have hS0 : (S : ℚ) ≠ 0 := Nat.cast_ne_zero.mpr (Nat.one_le_iff_ne_zero.mp hS)
  refine ⟨?_, ?_, ?_, ?_, ?_⟩
  · simp [interp, tParam]
  · rw [interp, tParam, div_self hS0]; ring
  · intro t₁ t₂ h12 hab
    have := mul_le_mul_of_nonneg_right h12 (sub_nonneg.mpr hab)
    simp only [interp]
    linarith
  · intro t₁ t₂ h12 hba
    have := mul_le_mul_of_nonpos_right h12 (sub_nonpos.mpr hba)
    simp only [interp]
    linarith
  · norm_num [sampleValues, interp, tParam, List.range_succ]

/-- Witness for `interp_endpoints_monotone` at the spec's concrete example:
endpoints 100 and -50 with 2 segments. -/
theorem interp_endpoints_monotone_witness :
    interp 100 (-50) (tParam 2 0) = 100 ∧ interp 100 (-50) (tParam 2 2) = -50 :=
  ⟨(interp_endpoints_monotone 100 (-50) 2 (by norm_num)).1,
   (interp_endpoints_monotone 100 (-50) 2 (by norm_num)).2.1⟩

/-! ### The 2D pipeline of TASK_1.py -/

/-- Force lookup of `TASK_1.py` lines 67-75: a missing (element, component)
record raises KeyError; the except block prints the element id and the
available component names and then re-raises. The error value carries
exactly that diagnostic pair. -/
def getForce (ds : Dataset) (e : ElemId) (c : String) : Except (ElemId × List String) ℚ :=
  match ds.forces e c with
  | some v => .ok v
  | none => .error (e, ds.components)

/-- One element's reads in the extraction loop of `TASK_1.py` lines 55-75:
the endpoint x positions (`coord_i[0]`, `coord_j[0]`) and the four force
components, read in the order Mz_i, Mz_j, Vy_i, Vy_j. -/
structure ElemReads where
  posI : ℚ
  posJ : ℚ
  mzI : ℚ
  mzJ : ℚ
  vyI : ℚ
  vyJ : ℚ
deriving DecidableEq, Repr

def readElem (ds : Dataset) (memF : ElemId → NodeId × NodeId) (nodeF : NodeId → Vec3)
    (e : ElemId) : Except (ElemId × List String) ElemReads := do
  let mzI ← getForce ds e "Mz_i"
  let mzJ ← getForce ds e "Mz_j"
  let vyI ← getForce ds e "Vy_i"
  let vyJ ← getForce ds e "Vy_j"
  .ok ⟨(nodeF (memF e).1).x, (nodeF (memF e).2).x, mzI, mzJ, vyI, vyJ⟩

/-- The three aligned output sequences of the 2D extraction
(`positions`, `bending_moments`, `shear_forces`). -/
structure Profile where
  positions : List ℚ
  bendingMoments : List ℚ
  shearForces : List ℚ
deriving DecidableEq, Repr

/-- The `idx > 0` arm of the extraction loop (`TASK_1.py` lines 81-84):
each subsequent element appends only its j-endpoint values. -/
def extractRest (ds : Dataset) (memF : ElemId → NodeId × NodeId) (nodeF : NodeId → Vec3) :
    List ElemId → Except (ElemId × List String) Profile
  | [] => .ok ⟨[], [], []⟩
  | e :: es => do
    let r ← readElem ds memF nodeF e
    let p ← extractRest ds memF nodeF es
    .ok ⟨r.posJ :: p.positions, r.mzJ :: p.bendingMoments, r.vyJ :: p.shearForces⟩

/-- The full extraction loop over `central_elements` (`TASK_1.py` lines
55-84): the first element contributes both endpoints (`idx == 0` arm,
lines 77-80), every later element only its j endpoint. -/
def extractProfile (ds : Dataset) (memF : ElemId → NodeId × NodeId) (nodeF : NodeId → Vec3) :
    List ElemId → Except (ElemId × List String) Profile
  | [] => .ok ⟨[], [], []⟩
  | e :: es => do
    let r ← readElem ds memF nodeF e
    let p ← extractRest ds memF nodeF es
    .ok ⟨r.posI :: r.posJ :: p.positions, r.mzI :: r.mzJ :: p.bendingMoments,
         r.vyI :: r.vyJ :: p.shearForces⟩

/-- All four component reads of an element succeed. -/
def elemOk (ds : Dataset) (e : ElemId) : Bool :=
  (ds.forces e "Mz_i").isSome && (ds.forces e "Mz_j").isSome &&
  (ds.forces e "Vy_i").isSome && (ds.forces e "Vy_j").isSome

theorem readElem_ok_of_elemOk (ds : Dataset) (memF : ElemId → NodeId × NodeId)
    (nodeF : NodeId → Vec3) (e : ElemId) (h : elemOk ds e = true) :
    ∃ r, readElem ds memF nodeF e = .ok r ∧
      r.posI = (nodeF (memF e).1).x ∧ r.posJ = (nodeF (memF e).2).x := by
  simp only [elemOk, Bool.and_eq_true, Option.isSome_iff_exists] at h
  obtain ⟨⟨⟨⟨a, ha⟩, b, hb⟩, c, hc⟩, d, hd⟩ := h
  refine ⟨⟨(nodeF (memF e).1).x, (nodeF (memF e).2).x, a, b, c, d⟩, ?_, rfl, rfl⟩
  simp [readElem, getForce, ha, hb, hc, hd, Bind.bind, Except.bind]

theorem readElem_error_of_not_elemOk (ds : Dataset) (memF : ElemId → NodeId × NodeId)
    (nodeF : NodeId → Vec3) (e : ElemId) (h : elemOk ds e = false) :
    readElem ds memF nodeF e = .error (e, ds.components) := by
  cases ha : ds.forces e "Mz_i" <;> cases hb : ds.forces e "Mz_j" <;>
    cases hc : ds.forces e "Vy_i" <;> cases hd : ds.forces e "Vy_j" <;>
    simp [readElem, getForce, elemOk, ha, hb, hc, hd, Bind.bind, Except.bind] at h ⊢

theorem readElem_ok_pos (ds : Dataset) (memF : ElemId → NodeId × NodeId)
    (nodeF : NodeId → Vec3) (e : ElemId) (r : ElemReads)
    (hr : readElem ds memF nodeF e = .ok r) :
    r.posI = (nodeF (memF e).1).x ∧ r.posJ = (nodeF (memF e).2).x := by
  cases ha : ds.forces e "Mz_i" <;> cases hb : ds.forces e "Mz_j" <;>
    cases hc : ds.forces e "Vy_i" <;> cases hd : ds.forces e "Vy_j" <;>
    simp [readElem, getForce, ha, hb, hc, hd, Bind.bind, Except.bind] at hr <;>
    simp [← hr]

theorem extractRest_ok (ds : Dataset) (memF : ElemId → NodeId × NodeId)
    (nodeF : NodeId → Vec3) (es : List ElemId) (p : Profile)
    (h : extractRest ds memF nodeF es = .ok p) :
    p.positions = es.map (fun e => (nodeF (memF e).2).x) ∧
    p.positions.length = es.length ∧
    p.bendingMoments.length = es.length ∧
    p.shearForces.length = es.length := by
  induction es generalizing p with
  | nil =>
    simp only [extractRest] at h
    cases h
    simp
  | cons e es ih =>
    simp only [extractRest] at h
    cases hr : readElem ds memF nodeF e with
    | error err => rw [hr] at h; simp [Bind.bind, Except.bind] at h
    | ok r =>
      rw [hr] at h
      cases hp : extractRest ds memF nodeF es with
      | error err => rw [hp] at h; simp [Bind.bind, Except.bind] at h
      | ok q =>
        rw [hp] at h
        simp only [Bind.bind, Except.bind, Except.ok.injEq] at h
        obtain ⟨h1, h2, h3, h4⟩ := ih q hp
        cases h
        simp [h1, h2, h3, h4, (readElem_ok_pos ds memF nodeF e r hr).2]

/-- **C3** (confirmed). For a non-empty chain whose force records all
resolve, the 2D extraction yields exactly `N + 1` positions, moments and
shears for `N` elements, and the position list is the x-coordinate of the
first element's i node followed by the x-coordinate of every element's
j node in chain order. -/
theorem extract_profile_chain (ds : Dataset) (memF : ElemId → NodeId × NodeId)
    (nodeF : NodeId → Vec3) (e : ElemId) (es : List ElemId) (p : Profile)
    (h : extractProfile ds memF nodeF (e :: es) = .ok p) :
    p.positions.length = (e :: es).length + 1 ∧
    p.bendingMoments.length = (e :: es).length + 1 ∧
    p.shearForces.length = (e :: es).length + 1 ∧
    p.positions = (nodeF (memF e).1).x :: (e :: es).map (fun e' => (nodeF (memF e').2).x) := by
  simp only [extractProfile] at h
  cases hr : readElem ds memF nodeF e with
  | error err => rw [hr] at h; simp [Bind.bind, Except.bind] at h
  | ok r =>
    rw [hr] at h
    cases hp : extractRest ds memF nodeF es with
    | error err => rw [hp] at h; simp [Bind.bind, Except.bind] at h
    | ok q =>
      rw [hp] at h
      simp only [Bind.bind, Except.bind, Except.ok.injEq] at h
      obtain ⟨h1, h2, h3, h4⟩ := extractRest_ok ds memF nodeF es q hp
      obtain ⟨hri, hrj⟩ := readElem_ok_pos ds memF nodeF e r hr
      cases h
      simp [h1, h2, h3, h4, hri, hrj]

/-- The member table of the spec's concrete 4-element example. -/
def memEx : ElemId → NodeId × NodeId := fun e =>
  if e = 15 then (3, 13) else if e = 24 then (13, 18)
  else if e = 33 then (18, 23) else if e = 42 then (23, 28) else (0, 0)

/-- The node table of the spec's concrete example: x-coordinates
0, 5, 10, 15, 20 for nodes 3, 13, 18, 23, 28. -/
def nodeEx : NodeId → Vec3 := fun n =>
  if n = 3 then ⟨0, 0, 0⟩ else if n = 13 then ⟨5, 0, 0⟩
  else if n = 18 then ⟨10, 0, 0⟩ else if n = 23 then ⟨15, 0, 0⟩
  else if n = 28 then ⟨20, 0, 0⟩ else ⟨0, 0, 0⟩

/-- Witness for `extract_profile_chain`: the girder chain [15, 24, 33, 42]
with node pairs (3,13), (13,18), (18,23), (23,28) and x-coordinates
0, 5, 10, 15, 20 yields positions [0, 5, 10, 15, 20] — 5 points for
4 elements. -/
theorem extract_profile_chain_witness :
    ∃ p : Profile, extractProfile constDs memEx nodeEx [15, 24, 33, 42] = .ok p ∧
      p.positions = [0, 5, 10, 15, 20] ∧ p.positions.length = 4 + 1 := by
  have hp : extractProfile constDs memEx nodeEx [15, 24, 33, 42] =
      .ok ⟨[0, 5, 10, 15, 20], [5, 5, 5, 5, 5], [5, 5, 5, 5, 5]⟩ := rfl
  have h := extract_profile_chain constDs memEx nodeEx 15 [24, 33, 42] _ hp
  exact ⟨_, hp, h.2.2.2.trans (by decide), h.1⟩

/-- **C7** (confirmed). In the 2D pipeline a missing component is fatal: if
every element before `e` in the chain resolves and some component read of
`e` fails, the whole extraction propagates an error carrying the id of `e`
together with the dataset's available component names — it never silently
defaults or continues. -/
theorem extract_profile_missing_component_fatal (ds : Dataset)
    (memF : ElemId → NodeId × NodeId) (nodeF : NodeId → Vec3)
    (pre : List ElemId) (e : ElemId) (post : List ElemId)
    (hpre : ∀ e' ∈ pre, elemOk ds e' = true) (he : elemOk ds e = false) :
    extractProfile ds memF nodeF (pre ++ e :: post) = .error (e, ds.components) := by
  have hrest : ∀ pre' : List ElemId, (∀ e' ∈ pre', elemOk ds e' = true) →
      extractRest ds memF nodeF (pre' ++ e :: post) = .error (e, ds.components) := by
    intro pre'
    induction pre' with
    | nil =>
      intro _
      simp only [List.nil_append, extractRest,
        readElem_error_of_not_elemOk ds memF nodeF e he, Bind.bind, Except.bind]
    | cons a as ih =>
      intro hok
      obtain ⟨r, hr, _⟩ := readElem_ok_of_elemOk ds memF nodeF a
        (hok a (List.mem_cons_self a as))
      simp only [List.cons_append, extractRest, hr, Bind.bind, Except.bind,
        List.append_eq, ih (fun e' he' => hok e' (List.mem_cons_of_mem a he'))]
  cases pre with
  | nil =>
    simp only [List.nil_append, extractProfile,
      readElem_error_of_not_elemOk ds memF nodeF e he, Bind.bind, Except.bind]
  | cons a as =>
    obtain ⟨r, hr, _⟩ := readElem_ok_of_elemOk ds memF nodeF a
      (hpre a (List.mem_cons_self a as))
    simp only [List.cons_append, extractProfile, hr, Bind.bind, Except.bind,
      List.append_eq, hrest as (fun e' he' => hpre e' (List.mem_cons_of_mem a he'))]

/-- Witness for `extract_profile_missing_component_fatal`: element 24's
records missing while element 15 resolves — the error names element 24 and
the component list. -/
theorem extract_profile_missing_component_fatal_witness :
    extractProfile
      ⟨fun e _ => if e = 15 then some 5 else none, ["Mz_i", "Mz_j", "Vy_i", "Vy_j"]⟩
      memEx nodeEx ([15] ++ 24 :: [33, 42]) =
      .error (24, ["Mz_i", "Mz_j", "Vy_i", "Vy_j"]) :=
  extract_profile_missing_component_fatal _ memEx nodeEx [15] 24 [33, 42]
    (by decide) (by decide)

/-- Continuity check of `TASK_1.py` lines 36-43: for each index `i > 0`,
compare element i's node_i against element i-1's node_j; a mismatch prints
a warning naming element i and the loop continues. The result is the list
of warned element ids in chain order. -/
def continuityWarnings (memF : ElemId → NodeId × NodeId) : List ElemId → List ElemId
  | [] => []
  | [_] => []
  | a :: b :: rest =>
    (if (memF b).1 ≠ (memF a).2 then [b] else []) ++ continuityWarnings memF (b :: rest)

/-- The Task-1 stages around the girder data: the continuity check runs
first and only prints warnings; the extraction follows. -/
def task1Pipeline (ds : Dataset) (memF : ElemId → NodeId × NodeId) (nodeF : NodeId → Vec3)
    (chain : List ElemId) : List ElemId × Except (ElemId × List String) Profile :=
  (continuityWarnings memF chain, extractProfile ds memF nodeF chain)

/-- **C8** (confirmed). The continuity check warns exactly on the
consecutive pairs whose shared node mismatches — the warning names the
later (offending) element — and the pipeline's extracted data is the plain
extraction result whatever the number of mismatches: the check neither
aborts nor alters it. -/
theorem continuity_check_characterization (ds : Dataset)
    (memF : ElemId → NodeId × NodeId) (nodeF : NodeId → Vec3) (chain : List ElemId) :
    continuityWarnings memF chain =
      ((chain.zip chain.tail).filter
        (fun pr => decide ((memF pr.2).1 ≠ (memF pr.1).2))).map Prod.snd ∧
    (task1Pipeline ds memF nodeF chain).2 = extractProfile ds memF nodeF chain := by
  refine ⟨?_, rfl⟩
  induction chain with
  | nil => rfl
  | cons a rest ih =>
    cases rest with
    | nil => rfl
    | cons b rest' =>
      simp only [continuityWarnings, List.tail_cons, List.zip_cons_cons, List.filter_cons, ih]
      by_cases hab : (memF b).1 ≠ (memF a).2
      · simp [hab]
      · simp [hab]

/-! ### The 3D ribbon builder of 3D_task_2.py -/

/-- The mesh arrays built for one element (`3D_task_2.py` lines 203-225):
per interpolation step the loop pushes the undisplaced and the displaced
point onto X/Y/Z and the absolute value twice onto the intensity array C;
the triangle index arrays push, per segment `i` with `b = i * 2`, the pairs
(b, b+1) onto I, (b+1, b+3) onto J and (b+2, b+2) onto K. -/
structure Ribbon where
  X : List ℚ
  Y : List ℚ
  Z : List ℚ
  C : List ℚ
  I : List ℕ
  J : List ℕ
  K : List ℕ
deriving DecidableEq, Repr

def ribbonArrays (p q : Vec3) (vi vj scale : ℚ) (S : ℕ) : Ribbon where
  X := (List.range (S + 1)).flatMap (fun i =>
    [interp p.x q.x (tParam S i), interp p.x q.x (tParam S i)])
  Y := (List.range (S + 1)).flatMap (fun i =>
    [interp p.y q.y (tParam S i),
     interp p.y q.y (tParam S i) + interp vi vj (tParam S i) * scale])
  Z := (List.range (S + 1)).flatMap (fun i =>
    [interp p.z q.z (tParam S i), interp p.z q.z (tParam S i)])
  C := (List.range (S + 1)).flatMap (fun i =>
    [|interp vi vj (tParam S i)|, |interp vi vj (tParam S i)|])
  I := (List.range S).flatMap (fun i => [2 * i, 2 * i + 1])
  J := (List.range S).flatMap (fun i => [2 * i + 1, 2 * i + 3])
  K := (List.range S).flatMap (fun i => [2 * i + 2, 2 * i + 2])

/-- A boundary edge line primitive: two points per axis (lines 276-327). -/
structure Edge where
  x : List ℚ
  y : List ℚ
  z : List ℚ
deriving DecidableEq, Repr

/-- Start vertical edge (lines 276-289). -/
def startEdge (p : Vec3) (vi scale : ℚ) : Edge :=
  ⟨[p.x, p.x], [p.y, p.y + vi * scale], [p.z, p.z]⟩

/-- End vertical edge (lines 293-307). -/
def endEdge (q : Vec3) (vj scale : ℚ) : Edge :=
  ⟨[q.x, q.x], [q.y, q.y + vj * scale], [q.z, q.z]⟩

/-- Top edge connecting the two peak displacements (lines 311-325). -/
def topEdge (p q : Vec3) (vi vj scale : ℚ) : Edge :=
  ⟨[p.x, q.x], [p.y + vi * scale, q.y + vj * scale], [p.z, q.z]⟩

/-- Everything the surface loop emits for one element: the mesh plus the
three boundary edges. -/
structure ElemSurface where
  mesh : Ribbon
  edgeStart : Edge
  edgeEnd : Edge
  edgeTop : Edge
deriving DecidableEq, Repr

/-- The guarded body of the surface loop (lines 195-329): node lookups and
the two force reads sit inside the try block; any failure yields `none`
(the element is skipped), otherwise the element's mesh and edges. The node
table is partial here because a bad node reference is one of the caught
failure modes. -/
def processElement (nodesF : NodeId → Option Vec3) (ds : Dataset) (rt : ResultType)
    (scale : ℚ) (S : ℕ) (m : Member) : Option ElemSurface :=
  match nodesF m.2.1, nodesF m.2.2, ds.forces m.1 (comps rt).1, ds.forces m.1 (comps rt).2 with
  | some p, some q, some vi, some vj =>
    some ⟨ribbonArrays p q vi vj scale S, startEdge p vi scale, endEdge q vj scale,
          topEdge p q vi vj scale⟩
  | _, _, _, _ => none

/-- The per-element warning printed by the except block (line 332). -/
def skipMsg (m : Member) : String :=
  "Warning: Could not process element " ++ toString m.1

/-- The whole surface loop: outputs of the successfully processed elements
in table order, paired with the warnings logged for the skipped ones. -/
def processAll (nodesF : NodeId → Option Vec3) (ds : Dataset) (rt : ResultType)
    (scale : ℚ) (S : ℕ) : List Member → List (ElemId × ElemSurface) × List String
  | [] => ([], [])
  | m :: rest =>
    let r := processAll nodesF ds rt scale S rest
    match processElement nodesF ds rt scale S m with
    | some out => ((m.1, out) :: r.1, r.2)
    | none => (r.1, skipMsg m :: r.2)

/-- The two-pass surface construction (lines 113-131 then 191-333): the
scale factor is computed by the pre-pass over the whole member table, then
every element is processed with that one scale. -/
def buildSurfaces (nodesF : NodeId → Option Vec3) (ds : Dataset) (rt : ResultType)
    (S : ℕ) (members : List Member) : List (ElemId × ElemSurface) × List String :=
  processAll nodesF ds rt (scaleFactor rt ds members) S members

theorem length_flatMap_pair {α : Type} (l : List ℕ) (f g : ℕ → α) :
    (l.flatMap (fun a => [f a, g a])).length = 2 * l.length := by
  induction l with
  | nil => rfl
  | cons x xs ih =>
    simp only [List.flatMap_cons, List.length_append, List.length_cons, List.length_nil, ih]
    ring

theorem length_flatMap_pair_range {α : Type} (n : ℕ) (f g : ℕ → α) :
    ((List.range n).flatMap (fun a => [f a, g a])).length = 2 * n := by
  rw [length_flatMap_pair, List.length_range]

/-- **C5** (confirmed). For segment count `S ≥ 1` the per-element mesh has
exactly `2 * (S + 1)` vertices — the X, Y, Z and intensity arrays all have
that length — exactly `2 * S` triangles in each index array, and every
triangle index is strictly below `2 * (S + 1)`. -/
theorem ribbon_mesh_counts (p q : Vec3) (vi vj scale : ℚ) (S : ℕ) (hS : 1 ≤ S) :
    (ribbonArrays p q vi vj scale S).X.length = 2 * (S + 1) ∧
    (ribbonArrays p q vi vj scale S).Y.length = 2 * (S + 1) ∧
    (ribbonArrays p q vi vj scale S).Z.length = 2 * (S + 1) ∧
    (ribbonArrays p q vi vj scale S).C.length = 2 * (S + 1) ∧
    (ribbonArrays p q vi vj scale S).I.length = 2 * S ∧
    (ribbonArrays p q vi vj scale S).J.length = 2 * S ∧
    (ribbonArrays p q vi vj scale S).K.length = 2 * S ∧
    (∀ n ∈ (ribbonArrays p q vi vj scale S).I ++ (ribbonArrays p q vi vj scale S).J ++
        (ribbonArrays p q vi vj scale S).K, n < 2 * (S + 1)) := by
  simp only [ribbonArrays]
  refine ⟨?_, ?_, ?_, ?_, ?_, ?_, ?_, ?_⟩
  · exact length_flatMap_pair_range (S + 1) _ _
  · exact length_flatMap_pair_range (S + 1) _ _
  · exact length_flatMap_pair_range (S + 1) _ _
  · exact length_flatMap_pair_range (S + 1) _ _
  · exact length_flatMap_pair_range S (fun i => 2 * i) (fun i => 2 * i + 1)
  · exact length_flatMap_pair_range S (fun i => 2 * i + 1) (fun i => 2 * i + 3)
  · exact length_flatMap_pair_range S (fun i => 2 * i + 2) (fun i => 2 * i + 2)
  · intro n hn
    simp only [ribbonArrays, List.mem_append, List.mem_flatMap, List.mem_range,
      List.mem_cons, List.not_mem_nil, or_false] at hn
    rcases hn with (⟨i, hi, h⟩ | ⟨i, hi, h⟩) | ⟨i, hi, h⟩ <;> omega

/-- Witness for `ribbon_mesh_counts` at the script's default `segments = 50`:
102 vertices and 100 triangles. -/
theorem ribbon_mesh_counts_witness :
    (ribbonArrays ⟨0, 0, 0⟩ ⟨1, 0, 0⟩ 100 (-50) 1 50).X.length = 2 * (50 + 1) ∧
    (ribbonArrays ⟨0, 0, 0⟩ ⟨1, 0, 0⟩ 100 (-50) 1 50).I.length = 2 * 50 :=
  ⟨(ribbon_mesh_counts ⟨0, 0, 0⟩ ⟨1, 0, 0⟩ 100 (-50) 1 50 (by norm_num)).1,
   (ribbon_mesh_counts ⟨0, 0, 0⟩ ⟨1, 0, 0⟩ 100 (-50) 1 50 (by norm_num)).2.2.2.2.1⟩

theorem processAll_append (nodesF : NodeId → Option Vec3) (ds : Dataset) (rt : ResultType)
    (scale : ℚ) (S : ℕ) (l₁ l₂ : List Member) :
    processAll nodesF ds rt scale S (l₁ ++ l₂) =
      ((processAll nodesF ds rt scale S l₁).1 ++ (processAll nodesF ds rt scale S l₂).1,
       (processAll nodesF ds rt scale S l₁).2 ++ (processAll nodesF ds rt scale S l₂).2) := by
  induction l₁ with
  | nil => simp [processAll]
  | cons m rest ih =>
    simp only [List.cons_append, processAll, ih]
    cases processElement nodesF ds rt scale S m <;> simp [ih]

/-- **C6** (confirmed). A failing element (missing force record or bad node
reference) in the surface loop is caught and skipped: the run over
`pre ++ bad :: post` produces exactly the outputs of `pre` followed by the
outputs of `post` — every remaining element is still processed — and the
log gains exactly one message naming the bad element's id inserted between
the logs of `pre` and `post`; the run never aborts. -/
theorem process_skips_bad_element (nodesF : NodeId → Option Vec3) (ds : Dataset)
    (rt : ResultType) (scale : ℚ) (S : ℕ) (pre : List Member) (bad : Member)
    (post : List Member) (hbad : processElement nodesF ds rt scale S bad = none) :
    processAll nodesF ds rt scale S (pre ++ bad :: post) =
      ((processAll nodesF ds rt scale S pre).1 ++ (processAll nodesF ds rt scale S post).1,
       (processAll nodesF ds rt scale S pre).2 ++
         skipMsg bad :: (processAll nodesF ds rt scale S post).2) := by
  rw [processAll_append]
  have hb : processAll nodesF ds rt scale S (bad :: post) =
      ((processAll nodesF ds rt scale S post).1,
       skipMsg bad :: (processAll nodesF ds rt scale S post).2) := by
    simp [processAll, hbad]
  rw [hb]

/-- Node table of the small concrete models below: four nodes on two
parallel lines. -/
def nodesCx : NodeId → Option Vec3 := fun n =>
  if n = 1 then some ⟨0, 0, 0⟩ else if n = 2 then some ⟨1, 0, 0⟩
  else if n = 3 then some ⟨0, 1, 0⟩ else if n = 4 then some ⟨1, 1, 0⟩ else none

/-- Two-element member table: element 1 on nodes (1,2), element 2 on (3,4). -/
def membersCx : List Member := [(1, 1, 2), (2, 3, 4)]

/-- Dataset where element 1 carries value 100 and element 2 value 1. -/
def dsCx : Dataset :=
  ⟨fun e _ => if e = 1 then some 100 else some 1, ["Mz_i", "Mz_j", "Vy_i", "Vy_j"]⟩

/-- The same dataset with element 1's force record removed. -/
def dsCx' : Dataset :=
  ⟨fun e _ => if e = 1 then none else some 1, ["Mz_i", "Mz_j", "Vy_i", "Vy_j"]⟩

/-- Witness for `process_skips_bad_element`: with element 1's record missing,
the run over both elements still emits element 2's surface and logs a
warning naming element 1. -/
theorem process_skips_bad_element_witness :
    processAll nodesCx dsCx' .BMD 1 1 ([] ++ (1, 1, 2) :: [(2, 3, 4)]) =
      ((processAll nodesCx dsCx' .BMD 1 1 []).1 ++
         (processAll nodesCx dsCx' .BMD 1 1 [(2, 3, 4)]).1,
       (processAll nodesCx dsCx' .BMD 1 1 []).2 ++
         skipMsg (1, 1, 2) :: (processAll nodesCx dsCx' .BMD 1 1 [(2, 3, 4)]).2) :=
  process_skips_bad_element nodesCx dsCx' .BMD 1 1 [] (1, 1, 2) [(2, 3, 4)] rfl

theorem bmd_ne_sfd : ResultType.BMD ≠ .SFD := by decide

/-- **C2** (counterexample). Dropping element 1's force record changes the
global maximum (100 → 1), hence the scale factor (1.8/100 → 1.8/1), hence
the displaced Y coordinates of element 2's ribbon: element 2's emitted
surface is NOT identical between the two runs. -/
theorem skip_element_interference_counterexample :
    (buildSurfaces nodesCx dsCx .BMD 1 membersCx).1.lookup 2 ≠
      (buildSurfaces nodesCx dsCx' .BMD 1 membersCx).1.lookup 2 := by
  have hsA : scaleFactor .BMD dsCx membersCx = 9 / 500 := by
    norm_num [scaleFactor, allValues, maxVal, comps, membersCx, targetSpan, dsCx, bmd_ne_sfd]
  have hsB : scaleFactor .BMD dsCx' membersCx = 9 / 5 := by
    norm_num [scaleFactor, allValues, maxVal, comps, membersCx, targetSpan, dsCx', bmd_ne_sfd]
  intro h
  rw [buildSurfaces, hsA, buildSurfaces, hsB] at h
  norm_num [membersCx, processAll, processElement, nodesCx, dsCx, dsCx', comps,
    List.lookup, startEdge, endEdge, topEdge, ribbonArrays, interp, tParam,
    List.range_succ, show ((2 : ℕ) == 1) = false from rfl] at h

/-- **C2** (amended). If removing one element's force record leaves the
global scale factor unchanged (i.e. the skipped element did not carry the
model-wide maximum absolute value), then every other element's emitted
surface — undisplaced coordinates, displaced coordinates and color
intensities alike — is identical between the two runs. -/
theorem lookup_cons_of_ne {β : Type} (e k : ElemId) (v : β) (l : List (ElemId × β))
    (h : e ≠ k) : ((k, v) :: l).lookup e = l.lookup e := by
  simp [List.lookup, beq_eq_false_iff_ne.mpr h]

theorem lookup_cons_congr {β : Type} (e : ElemId) (x : ElemId × β)
    (lA lB : List (ElemId × β)) (h : lA.lookup e = lB.lookup e) :
    ((x :: lA).lookup e) = ((x :: lB).lookup e) := by
  obtain ⟨k, v⟩ := x
  simp only [List.lookup]
  cases e == k <;> simp [h]

theorem skip_element_no_interference (nodesF : NodeId → Option Vec3) (ds ds' : Dataset)
    (rt : ResultType) (S : ℕ) (members : List Member) (e₀ : ElemId)
    (hds : ∀ e, e ≠ e₀ → ∀ c, ds'.forces e c = ds.forces e c)
    (hscale : scaleFactor rt ds' members = scaleFactor rt ds members) :
    ∀ e, e ≠ e₀ →
      ((buildSurfaces nodesF ds' rt S members).1.lookup e =
       (buildSurfaces nodesF ds rt S members).1.lookup e) := by
  intro e he
  unfold buildSurfaces
  rw [hscale]
  clear hscale
  generalize scaleFactor rt ds members = sc
  induction members with
  | nil => rfl
  | cons m rest ih =>
    by_cases hm : m.1 = e₀
    · have hne : e ≠ m.1 := fun h => he (h ▸ hm)
      simp only [processAll]
      cases h1 : processElement nodesF ds' rt sc S m with
      | some outB =>
        cases h2 : processElement nodesF ds rt sc S m with
        | some outA =>
          exact (lookup_cons_of_ne e m.1 outB _ hne).trans
            (ih.trans (lookup_cons_of_ne e m.1 outA _ hne).symm)
        | none => exact (lookup_cons_of_ne e m.1 outB _ hne).trans ih
      | none =>
        cases h2 : processElement nodesF ds rt sc S m with
        | some outA => exact ih.trans (lookup_cons_of_ne e m.1 outA _ hne).symm
        | none => exact ih
    · have hsame : processElement nodesF ds' rt sc S m =
          processElement nodesF ds rt sc S m := by
        unfold processElement
        rw [hds m.1 hm (comps rt).1, hds m.1 hm (comps rt).2]
      simp only [processAll]
      rw [hsame]
      cases h2 : processElement nodesF ds rt sc S m with
      | some outA => exact lookup_cons_congr e (m.1, outA) _ _ ih
      | none => exact ih

/-- Dataset answering 100 everywhere. -/
def dsW : Dataset := ⟨fun _ _ => some 100, ["Mz_i", "Mz_j", "Vy_i", "Vy_j"]⟩

/-- `dsW` with element 2's force record removed. -/
def dsW' : Dataset :=
  ⟨fun e _ => if e = 2 then none else some 100, ["Mz_i", "Mz_j", "Vy_i", "Vy_j"]⟩

/-- Witness for `skip_element_no_interference`: removing the record of an
element whose values were NOT the unique maximum (element 2, while element 1
keeps the maximum 100) leaves element 1's surface unchanged. -/
theorem skip_element_no_interference_witness :
    (buildSurfaces nodesCx dsW' .BMD 1 membersCx).1.lookup 1 =
      (buildSurfaces nodesCx dsW .BMD 1 membersCx).1.lookup 1 :=
  skip_element_no_interference nodesCx dsW dsW' .BMD 1 membersCx 2
    (by
      intro e he c
      show (if e = 2 then none else some (100 : ℚ)) = some 100
      rw [if_neg he])
    (by
      have h1 : scaleFactor .BMD dsW' membersCx = 9 / 500 := by
        norm_num [scaleFactor, allValues, maxVal, comps, membersCx, targetSpan, dsW',
          bmd_ne_sfd]
      have h2 : scaleFactor .BMD dsW membersCx = 9 / 500 := by
        norm_num [scaleFactor, allValues, maxVal, comps, membersCx, targetSpan, dsW,
          bmd_ne_sfd]
      rw [h1, h2])
    1 (by decide)

/-! ### The visibility control buttons (3D_task_2.py lines 415-448) -/

/-- A visibility-control button: its label and the per-trace visibility
flag list passed as the update argument. -/
structure Button where
  label : String
  visible : List Bool
deriving DecidableEq, Repr

/-- `visibility = [False] * total_traces` then `visibility[idx] = True` for
each recorded index (lines 428-430 and 440-442). -/
def mkVisibility (total : ℕ) (idxs : List ℕ) : List Bool :=
  idxs.foldl (fun vis i => vis.set i true) (List.replicate total false)

/-- The girder names iterated at line 426, in button order. -/
def girderNames : List String :=
  ["Girder 1", "Girder 2", "Girder 3", "Girder 4", "Girder 5"]

/-- The button list of lines 415-448: the show-all button first
(visibility `[True] * total`), one button per girder, then — only when the
'Other Elements' group recorded at least one trace — the transverse-only
button. (`girder_name in girder_traces` at line 427 is always true since
`girder_traces` is initialised with all five girder keys.) -/
def buildButtons (total : ℕ) (gtraces : String → List ℕ) : List Button :=
  ⟨"All Girders", List.replicate total true⟩ ::
    (girderNames.map (fun g => ⟨g, mkVisibility total (gtraces g)⟩) ++
      (if gtraces "Other Elements" ≠ [] then
        [⟨"Transverse Only", mkVisibility total (gtraces "Other Elements")⟩]
       else []))

theorem foldl_set_length (idxs : List ℕ) (l : List Bool) :
    (idxs.foldl (fun vis i => vis.set i true) l).length = l.length := by
  induction idxs generalizing l with
  | nil => rfl
  | cons i is ih => simp [List.foldl_cons, ih, List.length_set]

theorem foldl_set_getElem? (idxs : List ℕ) (l : List Bool) (j : ℕ) (hj : j < l.length) :
    (idxs.foldl (fun vis i => vis.set i true) l)[j]? =
      if j ∈ idxs then some true else l[j]? := by
  induction idxs generalizing l with
  | nil => simp
  | cons i is ih =>
    rw [List.foldl_cons, ih (l.set i true) (by simpa using hj)]
    by_cases hji : j = i
    · subst hji
      by_cases hmem : j ∈ is
      · simp [hmem]
      · simp [hmem, List.getElem?_set_eq_of_lt true hj]
    · by_cases hmem : j ∈ is
      · simp [hmem]
      · simp [hmem, hji, List.getElem?_set_ne (Ne.symm hji)]

theorem mkVisibility_length (total : ℕ) (idxs : List ℕ) :
    (mkVisibility total idxs).length = total := by
  rw [mkVisibility, foldl_set_length, List.length_replicate]

theorem mkVisibility_getD (total : ℕ) (idxs : List ℕ) (j : ℕ) (hj : j < total) :
    ((mkVisibility total idxs).getD j false = true ↔ j ∈ idxs) := by
  rw [List.getD_eq_getElem?_getD, mkVisibility,
    foldl_set_getElem? idxs _ j (by simpa using hj)]
  by_cases hmem : j ∈ idxs
  · simp [hmem]
  · simp [hmem, List.getElem?_replicate, hj]

/-- **C9** (confirmed). When the 'Other Elements' group recorded at least
one trace, the control set is exactly: a show-all button whose flag list is
all-True, one button per girder in order, and a transverse-only button; and
for every group `g` the built visibility list has one flag per trace, with
flag `j` True exactly when `j` is among the recorded indices of `g` — every
other trace's flag is False. -/
theorem buttons_characterization (total : ℕ) (gtraces : String → List ℕ)
    (hother : gtraces "Other Elements" ≠ []) :
    buildButtons total gtraces =
      ⟨"All Girders", List.replicate total true⟩ ::
        (girderNames.map (fun g => ⟨g, mkVisibility total (gtraces g)⟩) ++
          [⟨"Transverse Only", mkVisibility total (gtraces "Other Elements")⟩]) ∧
    (∀ j, j < total → (List.replicate total true).getD j false = true) ∧
    (∀ g j, j < total →
      ((mkVisibility total (gtraces g)).getD j false = true ↔ j ∈ gtraces g)) ∧
    (∀ g, (mkVisibility total (gtraces g)).length = total) := by
  refine ⟨?_, ?_, ?_, ?_⟩
  · simp [buildButtons, hother]
  · intro j hj
    rw [List.getD_eq_getElem?_getD]
    simp [List.getElem?_replicate, hj]
  · intro g j hj
    exact mkVisibility_getD total (gtraces g) j hj
  · intro g
    exact mkVisibility_length total (gtraces g)

/-- A concrete trace-index table: girder 1 owns traces 0 and 1, the
transverse group trace 2. -/
def gtracesW : String → List ℕ := fun g =>
  if g = "Girder 1" then [0, 1] else if g = "Other Elements" then [2] else []

/-- Witness for `buttons_characterization` on `gtracesW` with 3 traces. -/
theorem buttons_characterization_witness :
    buildButtons 3 gtracesW =
      ⟨"All Girders", List.replicate 3 true⟩ ::
        (girderNames.map (fun g => ⟨g, mkVisibility 3 (gtracesW g)⟩) ++
          [⟨"Transverse Only", mkVisibility 3 (gtracesW "Other Elements")⟩]) ∧
    ((mkVisibility 3 (gtracesW "Girder 1")).getD 0 false = true ↔ 0 ∈ gtracesW "Girder 1") :=
  ⟨(buttons_characterization 3 gtracesW (by simp [gtracesW])).1,
   (buttons_characterization 3 gtracesW (by simp [gtracesW])).2.2.1 "Girder 1" 0 (by norm_num)⟩

/-! ### Trace bookkeeping of the figure (3D_task_2.py lines 89-98, 146-178, 191-333) -/

/-- The girder table's element lists (lines 61-87). -/
def girderElements (g : String) : List ElemId :=
  if g = "Girder 1" then [13, 22, 31, 40, 49, 58, 67, 76, 81]
  else if g = "Girder 2" then [14, 23, 32, 41, 50, 59, 68, 77, 82]
  else if g = "Girder 3" then [15, 24, 33, 42, 51, 60, 69, 78, 83]
  else if g = "Girder 4" then [16, 25, 34, 43, 52, 61, 70, 79, 84]
  else if g = "Girder 5" then [17, 26, 35, 44, 53, 62, 71, 80, 85]
  else []

/-- The derived reverse lookup `element_to_girder.get(eid, 'Other Elements')`
(lines 89-93 with the default used at lines 160 and 193). The five element
lists are pairwise disjoint, so first-match equals the dict's last-write. -/
def girderOf (e : ElemId) : String :=
  if e ∈ girderElements "Girder 1" then "Girder 1"
  else if e ∈ girderElements "Girder 2" then "Girder 2"
  else if e ∈ girderElements "Girder 3" then "Girder 3"
  else if e ∈ girderElements "Girder 4" then "Girder 4"
  else if e ∈ girderElements "Girder 5" then "Girder 5"
  else "Other Elements"

/-- The six visibility groups: the five girders plus 'Other Elements'
(lines 146-149). -/
def groupNames : List String := girderNames ++ ["Other Elements"]

theorem girderOf_mem_groupNames (e : ElemId) : girderOf e ∈ groupNames := by
  unfold girderOf
  split
  · simp [groupNames, girderNames]
  · split
    · simp [groupNames, girderNames]
    · split
      · simp [groupNames, girderNames]
      · split
        · simp [groupNames, girderNames]
        · split <;> simp [groupNames, girderNames]

/-- The figure's trace bookkeeping: the tag (girder group) of every added
trace in order, and the per-group recorded index lists `girder_traces`. -/
structure FigState where
  traces : List String
  gtraces : String → List ℕ

def FigState.initial : FigState := ⟨[], fun _ => []⟩

/-- One `fig.add_trace(...)` immediately followed by
`girder_traces[girder_name].append(len(fig.data) - 1)` (e.g. lines 177-178):
the new trace's index is recorded under exactly its group. -/
def addTrace (st : FigState) (g : String) : FigState :=
  ⟨st.traces ++ [g],
   fun g' => if g' = g then st.gtraces g' ++ [st.traces.length] else st.gtraces g'⟩

/-- Pass 1 (lines 155-178): one centerline trace per element, tagged with
the owning girder or 'Other Elements'. -/
def addCenterlines (st : FigState) : List Member → FigState
  | [] => st
  | m :: rest => addCenterlines (addTrace st (girderOf m.1)) rest

/-- Pass 2 (lines 191-333): per successfully processed element, four traces
(mesh plus three boundary edges) all tagged with the element's group; a
failing element adds no trace. -/
def addSurfaces (nodesF : NodeId → Option Vec3) (ds : Dataset) (rt : ResultType)
    (scale : ℚ) (S : ℕ) (st : FigState) : List Member → FigState
  | [] => st
  | m :: rest =>
    match processElement nodesF ds rt scale S m with
    | some _ =>
      addSurfaces nodesF ds rt scale S
        (addTrace (addTrace (addTrace (addTrace st (girderOf m.1)) (girderOf m.1))
          (girderOf m.1)) (girderOf m.1)) rest
    | none => addSurfaces nodesF ds rt scale S st rest

/-- The full figure construction: scale pre-pass, centerline pass, surface
pass. -/
def buildFigure (nodesF : NodeId → Option Vec3) (ds : Dataset) (rt : ResultType)
    (S : ℕ) (members : List Member) : FigState :=
  addSurfaces nodesF ds rt (scaleFactor rt ds members) S
    (addCenterlines FigState.initial members) members

/-- The bookkeeping invariant: an index is recorded under a group exactly
when the trace at that index carries that group's tag, and every tag is one
of the six group names. -/
def FigInv (st : FigState) : Prop :=
  (∀ (g : String) (i : ℕ), i ∈ st.gtraces g ↔ st.traces[i]? = some g) ∧
  (∀ (i : ℕ) (g : String), st.traces[i]? = some g → g ∈ groupNames)

theorem figInv_initial : FigInv FigState.initial := by
  constructor
  · intro g i
    simp [FigState.initial]
  · intro i g h
    simp [FigState.initial] at h

theorem figInv_addTrace (st : FigState) (g : String) (hg : g ∈ groupNames)
    (h : FigInv st) : FigInv (addTrace st g) := by
  obtain ⟨h1, h2⟩ := h
  have hlt : ∀ i g', st.traces[i]? = some g' → i < st.traces.length :=
    fun i g' hx => (List.getElem?_eq_some.mp hx).1
  constructor
  · intro g' i
    simp only [addTrace]
    by_cases hgg : g' = g
    · subst hgg
      rw [if_pos rfl, List.mem_append]
      constructor
      · rintro (hi | hi)
        · have hx := (h1 g' i).mp hi
          rw [List.getElem?_append, if_pos (hlt i g' hx)]
          exact hx
        · simp only [List.mem_singleton] at hi
          subst hi
          rw [List.getElem?_append, if_neg (by omega)]
          simp
      · intro hx
        rcases Nat.lt_trichotomy i st.traces.length with hi | hi | hi
        · rw [List.getElem?_append, if_pos hi] at hx
          exact Or.inl ((h1 g' i).mpr hx)
        · exact Or.inr (by simp [hi])
        · rw [List.getElem?_eq_none (by simp; omega)] at hx
          cases hx
    · rw [if_neg hgg]
      constructor
      · intro hi
        have hx := (h1 g' i).mp hi
        rw [List.getElem?_append, if_pos (hlt i g' hx)]
        exact hx
      · intro hx
        rcases Nat.lt_trichotomy i st.traces.length with hi | hi | hi
        · rw [List.getElem?_append, if_pos hi] at hx
          exact (h1 g' i).mpr hx
        · subst hi
          rw [List.getElem?_append, if_neg (by omega)] at hx
          simp at hx
          exact absurd hx.symm hgg
        · rw [List.getElem?_eq_none (by simp; omega)] at hx
          cases hx
  · intro i g' hx
    simp only [addTrace] at hx
    rcases Nat.lt_trichotomy i st.traces.length with hi | hi | hi
    · rw [List.getElem?_append, if_pos hi] at hx
      exact h2 i g' hx
    · subst hi
      rw [List.getElem?_append, if_neg (by omega)] at hx
      simp at hx
      exact hx ▸ hg
    · rw [List.getElem?_eq_none (by simp; omega)] at hx
      cases hx

theorem figInv_addCenterlines (st : FigState) (members : List Member)
    (h : FigInv st) : FigInv (addCenterlines st members) := by
  induction members generalizing st with
  | nil => exact h
  | cons m rest ih =>
    exact ih _ (figInv_addTrace st (girderOf m.1) (girderOf_mem_groupNames m.1) h)

theorem figInv_addSurfaces (nodesF : NodeId → Option Vec3) (ds : Dataset)
    (rt : ResultType) (scale : ℚ) (S : ℕ) (st : FigState) (members : List Member)
    (h : FigInv st) : FigInv (addSurfaces nodesF ds rt scale S st members) := by
  induction members generalizing st with
  | nil => exact h
  | cons m rest ih =>
    simp only [addSurfaces]
    cases processElement nodesF ds rt scale S m with
    | some out =>
      exact ih _ (figInv_addTrace _ _ (girderOf_mem_groupNames m.1)
        (figInv_addTrace _ _ (girderOf_mem_groupNames m.1)
          (figInv_addTrace _ _ (girderOf_mem_groupNames m.1)
            (figInv_addTrace _ _ (girderOf_mem_groupNames m.1) h))))
    | none => exact ih _ h

/-- **C10** (confirmed). After the whole build, every trace index below the
figure's trace count is recorded in exactly one group's index list, and
every recorded index is a real trace index whose group is one of the six
group names (the five girders plus 'Other Elements'): the group index lists
are pairwise disjoint and together cover all trace indices. -/
theorem trace_partition (nodesF : NodeId → Option Vec3) (ds : Dataset) (rt : ResultType)
    (S : ℕ) (members : List Member) :
    (∀ i, i < (buildFigure nodesF ds rt S members).traces.length →
      ∃! g, i ∈ (buildFigure nodesF ds rt S members).gtraces g) ∧
    (∀ g i, i ∈ (buildFigure nodesF ds rt S members).gtraces g →
      i < (buildFigure nodesF ds rt S members).traces.length ∧ g ∈ groupNames) := by
  have hInv : FigInv (buildFigure nodesF ds rt S members) :=
    figInv_addSurfaces _ _ _ _ _ _ _ (figInv_addCenterlines _ _ figInv_initial)
  obtain ⟨h1, h2⟩ := hInv
  constructor
  · intro i hi
    refine ⟨(buildFigure nodesF ds rt S members).traces[i], ?_, ?_⟩
    · exact (h1 _ i).mpr (List.getElem?_eq_getElem hi)
    · intro g' hg'
      have hx := (h1 g' i).mp hg'
      rw [List.getElem?_eq_getElem hi] at hx
      exact (Option.some.inj hx).symm
  · intro g i hi
    have hx := (h1 g i).mp hi
    exact ⟨(List.getElem?_eq_some.mp hx).1, h2 i g hx⟩

/-- Witness for `trace_partition`: on the two-element model the figure has
traces, and trace 0 belongs to exactly one group. -/
theorem trace_partition_witness :
    ∃! g, 0 ∈ (buildFigure nodesCx dsW .BMD 1 membersCx).gtraces g :=
  (trace_partition nodesCx dsW .BMD 1 membersCx).1 0 (by decide)

end BridgeDiagrams
